import Mathlib

/-!
Verification of the cleanCSV utility (src/cleanCSV.py).

The program is shallowly embedded: Python strings are lists of code points,
a pandas DataFrame is a list of headers plus a list of rows of optional cells
(`none` models NaN / a missing value), and rational numbers stand for the
floating-point values of numeric columns.  Each definition mirrors one
function of the source file and keeps its name where Lean allows it.
-/

/-- A Python string, modelled as its list of Unicode code points. -/
abbrev PStr := List Nat

/-- One code point of `str.lower()`: ASCII upper-case letters (65–90) are
shifted to lower case, every other code point is unchanged. -/
def lowerCp (c : Nat) : Nat := if 65 ≤ c ∧ c ≤ 90 then c + 32 else c

/-- `str.lower()` applied to a whole string. -/
def pyLower (s : PStr) : PStr := s.map lowerCp

/-- The whitespace code points removed by Python `str.strip()`:
space, tab, newline, vertical tab, form feed, carriage return. -/
def isPySpace (c : Nat) : Bool :=
  decide (c = 32 ∨ c = 9 ∨ c = 10 ∨ c = 11 ∨ c = 12 ∨ c = 13)

/-- `str.strip()`: remove leading and trailing whitespace. -/
def pyStrip (s : PStr) : PStr :=
  List.rdropWhile isPySpace (List.dropWhile isPySpace s)

/-- One code point of `str.replace(' ', '_')`: a space (32) becomes an
underscore (95). -/
def replaceSpaceCp (c : Nat) : Nat := if c = 32 then 95 else c

/-- `str.replace(' ', '_')` applied to a whole string. -/
def pyReplaceSpace (s : PStr) : PStr := s.map replaceSpaceCp

/-- The per-header transformation of `standardize_headers`:
`header.strip().lower().replace(' ', '_')`. -/
def standardizeHeader (s : PStr) : PStr := pyReplaceSpace (pyLower (pyStrip s))

/-- `standardize_headers`: the dict mapping each original header to its
standardized form, modelled as an association list in header order. -/
def standardize_headers (headers : List PStr) : List (PStr × PStr) :=
  headers.map (fun h => (h, standardizeHeader h))

/-- The combined code-point map applied after stripping. -/
def normCp (c : Nat) : Nat := replaceSpaceCp (lowerCp c)

/-!
### The bounded input prompter (`take_input`)

`take_input(expected, tries, input_string)` loops: it returns `(keeps, None)`
as soon as the lower-cased response `keeps` is in `expected`; while
`respCount < tries` it reads another line (counted in `respCount`); once
`respCount >= tries` it returns `(None, respCount)`.

The interactive input stream is modelled by `inputs : Nat → PStr`, where
`inputs j` is the line typed at the j-th `input()` call (0-based).  The
embedding recurses on `remaining`, the number of reads the guard
`respCount < tries` still allows; since `respCount` starts at `0` and grows by
one per read, `remaining = tries.toNat - respCount` makes the two guards
`respCount < tries` and `remaining > 0` (and likewise `respCount >= tries` and
`remaining = 0`) equivalent.  The loop's membership test is performed first in
either case, exactly as in the source.  Besides the source function's returned
pair, the embedding also exposes the number of `input()` calls performed (the
final `respCount`).
-/

/-- Python `keeps in expected` where `keeps` starts as `None`: the sentinel
`none` is never an element of a list of strings. -/
def inExpected (keeps : Option PStr) (expected : List PStr) : Bool :=
  match keeps with
  | some k => decide (k ∈ expected)
  | none => false

/-- The `while True` loop of `take_input`. -/
def take_input_go (expected : List PStr) (inputs : Nat → PStr) :
    Option PStr → Nat → Nat → (Option PStr × Option Nat) × Nat
  | keeps, respCount, 0 =>
    if inExpected keeps expected then ((keeps, none), respCount)
    else ((none, some respCount), respCount)
  | keeps, respCount, r + 1 =>
    if inExpected keeps expected then ((keeps, none), respCount)
    else
      take_input_go expected inputs
        (some (pyLower (inputs respCount))) (respCount + 1) r

/-- `take_input`: the pair the source function returns. -/
def take_input (expected : List PStr) (tries : Int) (inputs : Nat → PStr) :
    Option PStr × Option Nat :=
  (take_input_go expected inputs none 0 tries.toNat).1

/-- The number of `input()` prompts `take_input` issues on the same run. -/
def take_input_promptCount (expected : List PStr) (tries : Int)
    (inputs : Nat → PStr) : Nat :=
  (take_input_go expected inputs none 0 tries.toNat).2

/-!
### Data model

A pandas DataFrame is a list of column headers together with a list of rows;
each cell is `none` (NaN / missing) or a value, either numeric (a rational,
standing for the column's int64/float64 content) or textual.  Rows are
positionally aligned with the headers.
-/

/-- A cell value: numeric or textual. -/
inductive Val where
  | num (q : ℚ)
  | txt (s : PStr)
deriving DecidableEq

/-- A cell: `none` is the null marker (NaN). -/
abbrev Cell := Option Val

/-- A row, positionally aligned with the headers. -/
abbrev Row := List Cell

/-- A DataFrame. -/
structure DF where
  headers : List PStr
  rows : List Row
deriving DecidableEq

/-- A well-formed DataFrame is rectangular: every row has one cell per
header. -/
def Rect (df : DF) : Prop := ∀ r ∈ df.rows, r.length = df.headers.length

instance (df : DF) : Decidable (Rect df) := by
  unfold Rect
  infer_instance

/-!
### Duplicate detection and removal

`df.duplicated()` (pandas default `keep='first'`) marks a row `True` iff an
earlier row is value-identical to it; with `keep='last'` iff a later row is.
`df.drop_duplicates(keep=...)` keeps exactly the unmarked rows, in their
original order.  The source's `profile_data` and `main` use
`df.duplicated().sum()` as the duplicate count, and `drop_duplicates`
(the source function) returns the new frame plus the length difference.
-/

/-- `duplicated(keep='first')`: `seen` accumulates the rows already passed. -/
def dupMaskFirstAux {α : Type} [DecidableEq α] (seen : List α) :
    List α → List Bool
  | [] => []
  | a :: l => decide (a ∈ seen) :: dupMaskFirstAux (a :: seen) l

/-- The `duplicated(keep='first')` mask of a list. -/
def dupMaskFirst {α : Type} [DecidableEq α] (l : List α) : List Bool :=
  dupMaskFirstAux [] l

/-- The `duplicated(keep='last')` mask: a row is marked iff it re-occurs
later. -/
def dupMaskLast {α : Type} [DecidableEq α] : List α → List Bool
  | [] => []
  | a :: l => decide (a ∈ l) :: dupMaskLast l

/-- Keep the entries whose mask bit is `false`, in order. -/
def applyMask {α : Type} (l : List α) (m : List Bool) : List α :=
  ((l.zip m).filter (fun p => !p.2)).map Prod.fst

/-- `df.duplicated().sum()`. -/
def duplicatedSum {α : Type} [DecidableEq α] (l : List α) : Nat :=
  (dupMaskFirst l).count true

/-- The Python string `'first'`. -/
def strFirst : PStr := [102, 105, 114, 115, 116]

/-- The Python string `'last'`. -/
def strLast : PStr := [108, 97, 115, 116]

/-- `pandas.DataFrame.drop_duplicates(keep=...)` on a row list.  The program
only ever calls it with `'first'` or `'last'` (the prompter validated the
choice), so the embedding distinguishes exactly those two. -/
def pdDropDuplicates {α : Type} [DecidableEq α] (l : List α)
    (keepLast : Bool) : List α :=
  applyMask l (if keepLast then dupMaskLast l else dupMaskFirst l)

/-- The source function `drop_duplicates(df, keep_inst)`: drops duplicate
rows with the given keep policy and returns the new frame together with
`before - after`, the number of rows removed. -/
def drop_duplicates (df : DF) (keep_inst : PStr) : DF × Nat :=
  let before := df.rows.length
  let newRows := pdDropDuplicates df.rows (decide (keep_inst = strLast))
  let after := newRows.length
  (⟨df.headers, newRows⟩, before - after)

/-!
### Dropping all-null columns (`main`, lines 166–170)

`main` drops the columns whose cells are all null before handling duplicates,
while the duplicate count it reports was computed on the original frame.
-/

/-- `cleanDF[column].isnull().all()` for column index `i`. -/
def allNullCol (df : DF) (i : Nat) : Bool :=
  df.rows.all (fun r => (r.getD i none).isNone)

/-- The column indices kept by `cleanDF.drop(columns=nullCols)`. -/
def keptColIdx (df : DF) : List Nat :=
  (List.range df.headers.length).filter (fun i => !allNullCol df i)

/-- A row restricted to the kept columns. -/
def projRow (df : DF) (r : Row) : Row :=
  (keptColIdx df).map (fun i => r.getD i none)

/-- `cleanDF = cleanDF.drop(columns=nullCols)` where `nullCols` are the
all-null columns. -/
def dropAllNullCols (df : DF) : DF :=
  ⟨(keptColIdx df).map (fun i => df.headers.getD i []),
   df.rows.map (projRow df)⟩

/-!
### Specification-side characterization of duplicate resolution

`specKeepFirst` follows the spec's words: retain the first occurrence of each
group of value-identical rows, in original row order; `specKeepLast` retains
the last occurrence of each group, again in original row order.
-/

/-- Spec: keep each group's first occurrence, in original order. -/
def specKeepFirst {α : Type} [DecidableEq α] : List α → List α
  | [] => []
  | a :: l => a :: specKeepFirst (l.filter (fun b => decide (b ≠ a)))
termination_by l => l.length
decreasing_by
  simp only [List.length_cons]
  exact Nat.lt_succ_of_le (List.filter_sublist _).length_le

/-- Spec: keep each group's last occurrence, in original order. -/
def specKeepLast {α : Type} [DecidableEq α] (l : List α) : List α :=
  (specKeepFirst l.reverse).reverse

/-- A small concrete frame used as the C6 witness: two text columns, the
first two rows value-identical, a third distinct row with one null. -/
def dfDup : DF :=
  ⟨[[97], [98]],
   [[some (Val.txt [120]), some (Val.txt [121])],
    [some (Val.txt [120]), some (Val.txt [121])],
    [some (Val.txt [122]), none]]⟩

/-!
### The outlier detector (`checkOutliers`)

`checkOutliers(cleanDF, column)` drops the nulls of the column, computes the
25th and 75th percentiles with `np.percentile` (default linear
interpolation), forms the 1.5×IQR boundaries, and then counts the rows of the
whole (un-dropped) column whose value is strictly below the lower or strictly
above the upper boundary; NaN compares false in both tests, exactly as a
`none` cell yields `false` below.  Rationals stand for the column's floats.
-/

/-- Insertion into a sorted list (ascending). -/
def insertSorted (x : ℚ) : List ℚ → List ℚ
  | [] => [x]
  | y :: ys => if x ≤ y then x :: y :: ys else y :: insertSorted x ys

/-- Ascending sort, as performed inside `np.percentile`. -/
def sortQ (l : List ℚ) : List ℚ := l.foldr insertSorted []

/-- `np.percentile(a, p)` with linear interpolation: for the ascending sort
`s` of `a` and `h = (len - 1) * p / 100`, the value
`s[⌊h⌋] + (h - ⌊h⌋) * (s[⌊h⌋ + 1] - s[⌊h⌋])` (for an empty input the value is
immaterial: the program only reaches this code with at least one non-null
value). -/
def percentile (l : List ℚ) (p : ℚ) : ℚ :=
  let s := sortQ l
  let h : ℚ := ((s.length : ℚ) - 1) * p / 100
  let i : Nat := (Int.floor h).toNat
  let lo := s.getD i 0
  let hi := s.getD (i + 1) lo
  lo + (h - (i : ℚ)) * (hi - lo)

/-- The numeric content of a cell (`none` for the null marker; a text cell
has no numeric content either, but the program only applies this to numeric
columns). -/
def cellNum : Cell → Option ℚ
  | some (Val.num q) => some q
  | some (Val.txt _) => none
  | none => none

/-- `colSeries = cleanDF[column].dropna()` as a list of rationals. -/
def nonNullNums (col : List Cell) : List ℚ := col.filterMap cellNum

/-- `firstQuartile` of the non-null values. -/
def firstQuartile (col : List Cell) : ℚ := percentile (nonNullNums col) 25

/-- `thirdQuartile` of the non-null values. -/
def thirdQuartile (col : List Cell) : ℚ := percentile (nonNullNums col) 75

/-- `lowerBoundary = firstQuartile - (1.5 * iqr)`. -/
def lowerBoundary (col : List Cell) : ℚ :=
  firstQuartile col - (1.5 : ℚ) * (thirdQuartile col - firstQuartile col)

/-- `upperBoundary = thirdQuartile + (1.5 * iqr)`. -/
def upperBoundary (col : List Cell) : ℚ :=
  thirdQuartile col + (1.5 : ℚ) * (thirdQuartile col - firstQuartile col)

/-- The row filter `(cleanDF[column] < lowerBoundary) |
(cleanDF[column] > upperBoundary)`: strict comparisons, false on NaN. -/
def outlierCell (col : List Cell) (cell : Cell) : Bool :=
  match cellNum cell with
  | some v => decide (v < lowerBoundary col) || decide (upperBoundary col < v)
  | none => false

/-- `checkOutliers` restricted to one column's cells: true iff the filtered
row count is positive. -/
def checkOutliersCol (col : List Cell) : Bool :=
  decide (0 < col.countP (outlierCell col))

/-- The cells of column `c` of a frame. -/
def colCells (df : DF) (c : Nat) : List Cell :=
  df.rows.map (fun r => r.getD c none)

/-- The source function `checkOutliers(cleanDF, column)` (column given by
index). -/
def checkOutliers (df : DF) (c : Nat) : Bool :=
  checkOutliersCol (colCells df c)

/-- The constant column `[1, 1, 1, 1]`, used as the C5 witness. -/
def colOnes : List Cell :=
  [some (Val.num 1), some (Val.num 1), some (Val.num 1), some (Val.num 1)]

/-!
### Null handling (`handle_nulls`)

On `'drop'` the source executes
`df[column] = df.dropna(subset=[column]).reset_index()`, assigning a whole
DataFrame (the surviving rows with the old index materialized as an extra
leading column) to a single column; pandas raises
`ValueError: Cannot set a DataFrame with multiple columns to the single
column ...` whenever the assigned frame has more than one column, which is
always the case here.  On any other instruction it imputes: if
`checkOutliers` reports outliers the imputer is `round(np.median(df[column]),
2)` — note `np.median` is applied to the RAW column, nulls included, so a
column that still contains NaN yields a NaN median (`none` below) and
`fillna(NaN)` changes nothing; otherwise the imputer is
`round(np.mean(df[column]))`, where `np.mean` dispatches to
`Series.mean()` which skips NaN, and Python's `round` rounds half to even.
-/

/-- Python `round(q)`: nearest integer, ties to even. -/
def pyRound (q : ℚ) : ℤ :=
  let f := Int.floor q
  let frac := q - f
  if frac < 1/2 then f
  else if 1/2 < frac then f + 1
  else if 2 ∣ f then f else f + 1

/-- Python `round(q, 2)`: banker's rounding at two decimal places. -/
def pyRound2 (q : ℚ) : ℚ := ((pyRound (q * 100) : ℤ) : ℚ) / 100

/-- `np.median` applied to the raw column (nulls included): any NaN poisons
the result to NaN (`none`); otherwise the median equals the 50th percentile
with linear interpolation.  `np.median` of an empty array is NaN as well. -/
def npMedian (col : List Cell) : Option ℚ :=
  if col.isEmpty then none
  else if col.any (fun cell => (cellNum cell).isNone) then none
  else some (percentile (nonNullNums col) 50)

/-- `np.mean(series)`, which dispatches to `Series.mean()`: the mean of the
non-null values (NaN when there are none). -/
def seriesMean (col : List Cell) : Option ℚ :=
  let xs := nonNullNums col
  if xs.isEmpty then none else some (xs.sum / (xs.length : ℚ))

/-- `Series.fillna(value)` on a numeric column: each null is replaced by the
value; filling with NaN (`none`) changes nothing. -/
def fillna (col : List Cell) (v : Option ℚ) : List Cell :=
  match v with
  | none => col
  | some q =>
    col.map (fun cell =>
      match cell with
      | none => some (Val.num q)
      | some x => some x)

/-- Overwrite column `c` of each row with the corresponding new cell. -/
def setColRows (rows : List Row) (c : Nat) (newCol : List Cell) : List Row :=
  (rows.zip newCol).map (fun p => p.1.set c p.2)

/-- `df.dropna(subset=[column])`: keep the rows whose cell in that column is
not null. -/
def dropnaSubset (df : DF) (c : Nat) : DF :=
  ⟨df.headers, df.rows.filter (fun r => !(r.getD c none).isNone)⟩

/-- The Python string `'index'`. -/
def strIndex : PStr := [105, 110, 100, 101, 120]

/-- `df.reset_index()`: the frame's integer index becomes a leading column
named `index`.  The index values are modelled positionally; the program never
observes them (the assignment that receives this frame always fails on the
column COUNT, which is `1 + len(headers)` regardless). -/
def reset_index (df : DF) : DF :=
  ⟨strIndex :: df.headers,
   df.rows.enum.map (fun p => some (Val.num (p.1 : ℚ)) :: p.2)⟩

/-- A pandas exception. -/
inductive PdError where
  | valueErr
deriving DecidableEq

/-- pandas `df[column] = value` where `value` is a DataFrame: only a
single-column frame may be assigned (it is then index-aligned — modelled
positionally, unreachable in this program); with more columns pandas raises
`ValueError`. -/
def setItemDF (df : DF) (c : Nat) (v : DF) : Except PdError DF :=
  if v.headers.length = 1 then
    Except.ok ⟨df.headers, setColRows df.rows c (colCells v 0)⟩
  else Except.error PdError.valueErr

/-- The Python string `'drop'`. -/
def strDrop : PStr := [100, 114, 111, 112]

/-- The Python string `'impute'`. -/
def strImpute : PStr := [105, 109, 112, 117, 116, 101]

/-- The Python string `'keep'`. -/
def strKeep : PStr := [107, 101, 101, 112]

/-- `handle_nulls(instruction, df, column)` (column given by index; the
instruction is `none` when the prompter failed, which `main` passes through
unchecked). -/
def handle_nulls (instruction : Option PStr) (df : DF) (column : Nat) :
    Except PdError DF :=
  if instruction = some strDrop then
    setItemDF df column (reset_index (dropnaSubset df column))
  else
    let outlier_status := checkOutliers df column
    let imputer : Option ℚ :=
      if outlier_status then (npMedian (colCells df column)).map pyRound2
      else (seriesMean (colCells df column)).map (fun m => ((pyRound m : ℤ) : ℚ))
    Except.ok
      ⟨df.headers, setColRows df.rows column
        (fillna (colCells df column) imputer)⟩

/-- A one-column numeric frame with an outlier (100) and one null. -/
def dfOut : DF :=
  ⟨[[97]],
   [[some (Val.num 1)], [some (Val.num 2)], [some (Val.num 3)],
    [some (Val.num 100)], [none]]⟩

/-!
### The pipeline (`main` and the module-level argv check)

`sys.exit(1)` exits with status 1; a bare `sys.exit()` exits with status 0
(Python: `sys.exit()` is `sys.exit(None)`).  An uncaught exception is
`crashed`.  The CSV load is abstracted as an `Except` (the only `try` in the
program wraps `pd.read_csv`); the interactive stream is a single function
`inputs`, consumed left to right, each `take_input` call starting where the
previous one stopped.
-/

/-- The outcome of a run. -/
inductive MainResult where
  | exited (code : Nat)
  | crashed
  | finished (df : DF)
deriving DecidableEq

/-- `cleanDF.rename(columns=standardize_headers(cleanDF.columns))`. -/
def renameHeaders (df : DF) : DF :=
  ⟨df.headers.map standardizeHeader, df.rows⟩

/-- The option list for the duplicate prompt. -/
def expectedDup : List PStr := [strFirst, strLast]

/-- The option list for the null-handling prompt. -/
def expectedNull : List PStr := [strImpute, strKeep, strDrop]

/-- Python truthiness of `input_attempts` (`None` or an int). -/
def pyTruthy : Option Nat → Bool
  | none => false
  | some n => decide (n ≠ 0)

/-- The input stream after `off` lines have been consumed. -/
def shiftInputs (inputs : Nat → PStr) (off : Nat) : Nat → PStr :=
  fun n => inputs (n + off)

/-- Whether a cell can live in an int64/float64 column: nulls and numbers
do, text does not (a column containing text has dtype object). -/
def isNumCell : Cell → Bool
  | none => true
  | some (Val.num _) => true
  | some (Val.txt _) => false

/-- `cleanDF.select_dtypes(include=['int64','float64']).columns`, as column
indices. -/
def numericIdx (df : DF) : List Nat :=
  (List.range df.headers.length).filter
    (fun i => df.rows.all (fun r => isNumCell (r.getD i none)))

/-- The per-numeric-column null-handling loop of `main` (lines 202–225).
When the prompter exhausts its retries, the source only logs and prints
("Please restart the program") — there is NO `sys.exit()` — and control falls
through to `handle_nulls` with `null_cmd = None`. -/
def nullLoop (inputs : Nat → PStr) : List Nat → DF → Nat → MainResult
  | [], df, _ => MainResult.finished df
  | c :: rest, df, off =>
    if (colCells df c).countP (fun cell => cell.isNone) = 0 then
      nullLoop inputs rest df off
    else
      let r := take_input_go expectedNull (shiftInputs inputs off) none 0 3
      if r.1.1 = some strKeep then nullLoop inputs rest df (off + r.2)
      else
        match handle_nulls r.1.1 df c with
        | Except.error _ => MainResult.crashed
        | Except.ok df2 => nullLoop inputs rest df2 (off + r.2)

/-- `main`: load, empty check, profiling (read-only), all-null column drop,
header normalization, duplicate resolution (aborting via bare `sys.exit()` on
retry exhaustion — exit status 0), then the null-handling loop, then save.
The duplicate count is taken from the ORIGINAL frame `df`, as in the source
(line 185).  `drop_duplicates(keep=None)` — only conceivable if the prompter
returned success with attempt count 0 — would raise in pandas, hence
`crashed`; it is unreachable with the budget 3. -/
def runMain (load : Except Unit DF) (inputs : Nat → PStr) : MainResult :=
  match load with
  | Except.error _ => MainResult.exited 0
  | Except.ok df =>
    if df.rows.length = 0 then MainResult.exited 0
    else
      let clean1 := renameHeaders (dropAllNullCols df)
      if 0 < duplicatedSum df.rows then
        let r := take_input_go expectedDup inputs none 0 3
        if pyTruthy r.1.2 then MainResult.exited 0
        else
          match r.1.1 with
          | none => MainResult.crashed
          | some k =>
            let clean2 := (drop_duplicates clean1 k).1
            nullLoop inputs (numericIdx clean2) clean2 r.2
      else nullLoop inputs (numericIdx clean1) clean1 0

/-- The module-level argument check plus `main`: with `argc ≠ 2` entries in
`sys.argv` the program prints usage and calls `sys.exit(1)`. -/
def runProgram (argc : Nat) (load : Except Unit DF) (inputs : Nat → PStr) :
    MainResult :=
  if argc ≠ 2 then MainResult.exited 1
  else runMain load inputs

/-- An input stream that always answers `'z'` (invalid for every prompt). -/
def zzzInput : Nat → PStr := fun _ => [122]

/-- A one-column numeric frame with nulls and no outliers: values 1, 2, 3 and
one null. -/
def dfC2 : DF :=
  ⟨[[97]],
   [[some (Val.num 1)], [some (Val.num 2)], [some (Val.num 3)], [none]]⟩

/-- `dfC2` after mean imputation with 2. -/
def dfC2imp : DF :=
  ⟨[[97]],
   [[some (Val.num 1)], [some (Val.num 2)], [some (Val.num 3)],
    [some (Val.num 2)]]⟩

/-- An empty frame: headers only, zero rows. -/
def dfEmpty : DF := ⟨[[97]], []⟩

/-!
### Theorems
-/
theorem lowerCp_idem (c : Nat) : lowerCp (lowerCp c) = lowerCp c := by
  unfold lowerCp
  split_ifs <;> omega

theorem replaceSpaceCp_lowerCp_fixed (c : Nat) :
    lowerCp (replaceSpaceCp (lowerCp c)) = replaceSpaceCp (lowerCp c) := by
  unfold lowerCp replaceSpaceCp
  split_ifs <;> omega

theorem replaceSpaceCp_idem (c : Nat) :
    replaceSpaceCp (replaceSpaceCp c) = replaceSpaceCp c := by
  unfold replaceSpaceCp
  split_ifs <;> omega

theorem isPySpace_lowerCp (c : Nat) (h : isPySpace c = false) :
    isPySpace (lowerCp c) = false := by
  simp only [isPySpace, decide_eq_false_iff_not] at h ⊢
  unfold lowerCp
  split_ifs <;> omega

theorem isPySpace_replaceSpaceCp (c : Nat) (h : isPySpace c = false) :
    isPySpace (replaceSpaceCp c) = false := by
  simp only [isPySpace, decide_eq_false_iff_not] at h ⊢
  unfold replaceSpaceCp
  split_ifs <;> omega

theorem standardizeHeader_eq_map (s : PStr) :
    standardizeHeader s = (pyStrip s).map normCp := by
  simp [standardizeHeader, pyReplaceSpace, pyLower, normCp, List.map_map]

theorem isPySpace_normCp (c : Nat) (h : isPySpace c = false) :
    isPySpace (normCp c) = false :=
  isPySpace_replaceSpaceCp _ (isPySpace_lowerCp _ h)

theorem dropWhile_self_head {p : Nat → Bool} {a : Nat} {t : PStr}
    (h : (a :: t).dropWhile p = a :: t) : p a = false := by
  by_cases hpa : p a = true
  · rw [List.dropWhile_cons_of_pos hpa] at h
    have h1 : (t.dropWhile p).length ≤ t.length :=
      (List.dropWhile_sublist p).length_le
    have h2 := congrArg List.length h
    simp at h2
    omega
  · simpa using hpa

theorem dropWhile_map_self {p : Nat → Bool} {g : Nat → Nat}
    (hg : ∀ c, p c = false → p (g c) = false) (t : PStr)
    (h : t.dropWhile p = t) : (t.map g).dropWhile p = t.map g := by
  cases t with
  | nil => simp
  | cons a t' =>
    have ha : p a = false := dropWhile_self_head h
    simp [List.dropWhile_cons, hg a ha]

theorem rdropWhile_map_self {p : Nat → Bool} {g : Nat → Nat}
    (hg : ∀ c, p c = false → p (g c) = false) (t : PStr)
    (h : List.rdropWhile p t = t) : List.rdropWhile p (t.map g) = t.map g := by
  rw [List.rdropWhile_eq_self_iff] at h ⊢
  intro hne
  have htne : t ≠ [] := by
    intro hx
    exact hne (by simp [hx])
  have hlast : p (t.getLast htne) = false := (Bool.not_eq_true _).mp (h htne)
  rw [List.getLast_map]
  simp [hg _ hlast]

theorem pyStrip_map_self {g : Nat → Nat}
    (hg : ∀ c, isPySpace c = false → isPySpace (g c) = false) (s : PStr) :
    pyStrip ((pyStrip s).map g) = (pyStrip s).map g := by
  have h1 : (pyStrip s).dropWhile isPySpace = pyStrip s := by
    rcases hx : pyStrip s with _ | ⟨a, t⟩
    · simp
    · have hpre := List.rdropWhile_prefix isPySpace (List.dropWhile isPySpace s)
      rw [pyStrip] at hx
      rw [hx] at hpre
      obtain ⟨r, hr⟩ := hpre
      have hu : (List.dropWhile isPySpace s).dropWhile isPySpace =
          List.dropWhile isPySpace s := List.dropWhile_idempotent _ _
      rw [← hr, List.cons_append] at hu
      have ha : isPySpace a = false := dropWhile_self_head hu
      simp [List.dropWhile_cons, ha]
  have h2 : List.rdropWhile isPySpace (pyStrip s) = pyStrip s :=
    List.rdropWhile_idempotent _ _
  show List.rdropWhile isPySpace
      (List.dropWhile isPySpace ((pyStrip s).map g)) = (pyStrip s).map g
  rw [dropWhile_map_self hg (pyStrip s) h1]
  exact rdropWhile_map_self hg (pyStrip s) h2

theorem pyStrip_standardizeHeader (s : PStr) :
    pyStrip (standardizeHeader s) = standardizeHeader s := by
  rw [standardizeHeader_eq_map]
  exact pyStrip_map_self isPySpace_normCp s

theorem pyLower_standardizeHeader (s : PStr) :
    pyLower (standardizeHeader s) = standardizeHeader s := by
  rw [standardizeHeader_eq_map]
  unfold pyLower
  rw [List.map_map, List.map_eq_map_iff]
  intro a _
  exact replaceSpaceCp_lowerCp_fixed a

theorem pyReplaceSpace_standardizeHeader (s : PStr) :
    pyReplaceSpace (standardizeHeader s) = standardizeHeader s := by
  rw [standardizeHeader_eq_map]
  unfold pyReplaceSpace
  rw [List.map_map, List.map_eq_map_iff]
  intro a _
  simp only [Function.comp, normCp]
  exact replaceSpaceCp_idem _

/-- Claim C8: the header normalizer is idempotent — applying
`standardize_headers`' per-header transformation (trim leading/trailing
whitespace, lowercase, replace internal spaces with underscores) to an
already-normalized header returns it unchanged:
`normalize (normalize h) = normalize h` for every header string `h`. -/
theorem standardizeHeader_idempotent (h : PStr) :
    standardizeHeader (standardizeHeader h) = standardizeHeader h := by
  conv_lhs => rw [standardizeHeader]
  rw [pyStrip_standardizeHeader, pyLower_standardizeHeader,
    pyReplaceSpace_standardizeHeader]

theorem take_input_go_all_invalid (expected : List PStr) (inputs : Nat → PStr) :
    ∀ (r : Nat) (keeps : Option PStr) (respCount : Nat),
      inExpected keeps expected = false →
      (∀ j, respCount ≤ j → j < respCount + r → pyLower (inputs j) ∉ expected) →
      take_input_go expected inputs keeps respCount r =
        ((none, some (respCount + r)), respCount + r) := by
  intro r
  induction r with
  | zero =>
    intro keeps respCount hk _
    rw [take_input_go, if_neg (by simp [hk])]
    simp
  | succ r ih =>
    intro keeps respCount hk hinv
    rw [take_input_go, if_neg (by simp [hk])]
    have hbad : pyLower (inputs respCount) ∉ expected :=
      hinv respCount (le_refl _) (by omega)
    have hrec := ih (some (pyLower (inputs respCount))) (respCount + 1)
      (by simp [inExpected, hbad])
      (fun j h1 h2 => hinv j (by omega) (by omega))
    rw [hrec]
    have harith : respCount + 1 + r = respCount + (r + 1) := by omega
    rw [harith]

theorem take_input_go_valid_at (expected : List PStr) (inputs : Nat → PStr) :
    ∀ (k : Nat) (keeps : Option PStr) (respCount r : Nat),
      inExpected keeps expected = false →
      k < r →
      (∀ j, respCount ≤ j → j < respCount + k → pyLower (inputs j) ∉ expected) →
      pyLower (inputs (respCount + k)) ∈ expected →
      take_input_go expected inputs keeps respCount r =
        ((some (pyLower (inputs (respCount + k))), none), respCount + k + 1) := by
  intro k
  induction k with
  | zero =>
    intro keeps respCount r hk hr _ hval
    match r, hr with
    | r' + 1, _ =>
      rw [take_input_go, if_neg (by simp [hk])]
      cases r' with
      | zero =>
        rw [take_input_go, if_pos (by simpa [inExpected] using hval)]
        simp
      | succ r'' =>
        rw [take_input_go, if_pos (by simpa [inExpected] using hval)]
        simp
  | succ k ih =>
    intro keeps respCount r hk hr hinv hval
    match r, hr with
    | r' + 1, hr =>
      rw [take_input_go, if_neg (by simp [hk])]
      have hbad : pyLower (inputs respCount) ∉ expected :=
        hinv respCount (le_refl _) (by omega)
      have hval' : pyLower (inputs (respCount + 1 + k)) ∈ expected := by
        have harith : respCount + 1 + k = respCount + (k + 1) := by omega
        rwa [harith]
      have hrec := ih (some (pyLower (inputs respCount))) (respCount + 1) r'
        (by simp [inExpected, hbad])
        (by omega)
        (fun j h1 h2 => hinv j (by omega) (by omega))
        hval'
      rw [hrec]
      have harith : respCount + 1 + k = respCount + (k + 1) := by omega
      rw [harith]

theorem take_input_go_count_on_failure (expected : List PStr)
    (inputs : Nat → PStr) :
    ∀ (r : Nat) (keeps : Option PStr) (respCount c : Nat),
      (take_input_go expected inputs keeps respCount r).1.2 = some c →
      (take_input_go expected inputs keeps respCount r).2 = c := by
  intro r
  induction r with
  | zero =>
    intro keeps respCount c h
    rw [take_input_go] at h ⊢
    by_cases hk : inExpected keeps expected = true
    · rw [if_pos hk] at h
      simp at h
    · rw [if_neg hk] at h ⊢
      simp at h
      simp [h]
  | succ r ih =>
    intro keeps respCount c h
    rw [take_input_go] at h ⊢
    by_cases hk : inExpected keeps expected = true
    · rw [if_pos hk] at h
      simp at h
    · rw [if_neg hk] at h ⊢
      exact ih _ _ _ h

/-- Claim C4: the prompter's retry budget.  A response is valid exactly when
its lower-cased form is a member of `expected` (case-insensitive exact
matching).  If all `tries` reads are invalid, `take_input` issues exactly
`tries` prompts and returns the failure pair `(None, respCount)` carrying the
attempt count (`ExhaustedRetries` with count `tries`); if the first valid
response arrives at 1-based attempt `k ≤ tries`, `take_input` returns that
selection after exactly `k` prompts, issuing no further prompt. -/
theorem take_input_retry_budget (expected : List PStr) (inputs : Nat → PStr)
    (t : Nat) :
    ((∀ j, j < t → pyLower (inputs j) ∉ expected) →
      take_input expected (t : Int) inputs = (none, some t) ∧
      take_input_promptCount expected (t : Int) inputs = t) ∧
    (∀ k, 0 < k → k ≤ t →
      (∀ j, j < k - 1 → pyLower (inputs j) ∉ expected) →
      pyLower (inputs (k - 1)) ∈ expected →
      take_input expected (t : Int) inputs =
        (some (pyLower (inputs (k - 1))), none) ∧
      take_input_promptCount expected (t : Int) inputs = k) := by
  constructor
  · intro hall
    have hgo := take_input_go_all_invalid expected inputs t none 0 rfl
      (fun j h1 h2 => hall j (by omega))
    unfold take_input take_input_promptCount
    rw [Int.toNat_natCast, hgo]
    simp
  · intro k hk1 hkt hbefore hval
    have hgo := take_input_go_valid_at expected inputs (k - 1) none 0 t rfl
      (by omega) (fun j h1 h2 => hbefore j (by omega)) (by simpa using hval)
    unfold take_input take_input_promptCount
    rw [Int.toNat_natCast, hgo]
    refine ⟨by simp, ?_⟩
    simp only
    omega

/-- Claim C10: with a non-positive attempt budget `tries ≤ 0`, `take_input`
immediately returns the failure pair carrying attempt count 0 without issuing
a single prompt (the initial `None` sentinel never matches a list of expected
strings); and in general, the attempt count carried by a failure result always
equals the number of prompts actually issued. -/
theorem take_input_zero_budget_and_count (expected : List PStr)
    (inputs : Nat → PStr) (tries : Int) :
    (tries ≤ 0 →
      take_input expected tries inputs = (none, some 0) ∧
      take_input_promptCount expected tries inputs = 0) ∧
    (∀ c, (take_input expected tries inputs).2 = some c →
      take_input_promptCount expected tries inputs = c) := by
  constructor
  · intro hneg
    have h0 : tries.toNat = 0 := Int.toNat_of_nonpos hneg
    unfold take_input take_input_promptCount
    rw [h0, take_input_go]
    simp [inExpected]
  · intro c h
    exact take_input_go_count_on_failure expected inputs _ _ _ _ h

/-- Witness for C4 at a concrete instance: options {f, l} given as lower-case
strings, budget 3; with every response invalid the prompter fails with count 3
after 3 prompts, and with a valid response at attempt 2 it returns it after
exactly 2 prompts. -/
theorem take_input_retry_budget_witness :
    ((∀ j, j < 3 → pyLower ((fun _ => ([120] : PStr)) j) ∉ [[102], [108]]) →
      take_input [[102], [108]] ((3 : Nat) : Int) (fun _ => ([120] : PStr)) =
        (none, some 3) ∧
      take_input_promptCount [[102], [108]] ((3 : Nat) : Int)
        (fun _ => ([120] : PStr)) = 3) ∧
    (0 < 2 ∧ 2 ≤ 3 ∧
      (∀ j, j < 2 - 1 →
        pyLower ((fun n => if n = 1 then ([102] : PStr) else [120]) j) ∉
          [[102], [108]]) ∧
      pyLower ((fun n => if n = 1 then ([102] : PStr) else [120]) (2 - 1)) ∈
        [[102], [108]] ∧
      (take_input [[102], [108]] ((3 : Nat) : Int)
          (fun n => if n = 1 then ([102] : PStr) else [120]) =
        (some (pyLower ((fun n => if n = 1 then ([102] : PStr) else [120])
          (2 - 1))), none) ∧
      take_input_promptCount [[102], [108]] ((3 : Nat) : Int)
        (fun n => if n = 1 then ([102] : PStr) else [120]) = 2)) := by
  refine ⟨(take_input_retry_budget [[102], [108]] (fun _ => ([120] : PStr)) 3).1,
    by decide, by decide, ?_, ?_, ?_⟩
  · intro j hj
    interval_cases j <;> decide
  · decide
  · exact (take_input_retry_budget [[102], [108]]
      (fun n => if n = 1 then ([102] : PStr) else [120]) 3).2 2 (by decide)
      (by decide) (fun j hj => by interval_cases j <;> decide) (by decide)

/-- Witness for C10: with budget `-1` the prompter fails immediately with
attempt count 0 and zero prompts, and the count carried by a concrete failure
run equals the prompts issued. -/
theorem take_input_zero_budget_witness :
    ((-1 : Int) ≤ 0 ∧
      take_input [[102]] (-1) (fun _ => ([120] : PStr)) = (none, some 0) ∧
      take_input_promptCount [[102]] (-1) (fun _ => ([120] : PStr)) = 0) ∧
    (∀ c, (take_input [[102]] (-1) (fun _ => ([120] : PStr))).2 = some c →
      take_input_promptCount [[102]] (-1) (fun _ => ([120] : PStr)) = c) := by
  refine ⟨⟨by decide, ?_⟩, ?_⟩
  · exact (take_input_zero_budget_and_count [[102]]
      (fun _ => ([120] : PStr)) (-1)).1 (by decide)
  · exact (take_input_zero_budget_and_count [[102]]
      (fun _ => ([120] : PStr)) (-1)).2

theorem applyMask_cons {α : Type} (a : α) (l : List α) (b : Bool)
    (m : List Bool) :
    applyMask (a :: l) (b :: m) =
      if b then applyMask l m else a :: applyMask l m := by
  cases b <;> simp [applyMask]

theorem applyMask_dupMaskFirstAux {α : Type} [DecidableEq α] :
    ∀ (l seen : List α),
      applyMask l (dupMaskFirstAux seen l) =
        specKeepFirst (l.filter (fun b => decide (b ∉ seen))) := by
  intro l
  induction l with
  | nil => intro seen; simp [applyMask, dupMaskFirstAux, specKeepFirst]
  | cons a l ih =>
    intro seen
    rw [dupMaskFirstAux, applyMask_cons]
    by_cases ha : a ∈ seen
    · rw [if_pos (by simpa using ha), ih (a :: seen)]
      rw [List.filter_cons]
      rw [if_neg (by simpa using ha)]
      congr 1
      apply List.filter_congr
      intro b _
      simp only [decide_eq_decide, List.mem_cons, not_or]
      constructor
      · exact fun hb => hb.2
      · intro hb
        refine ⟨fun hba => ?_, hb⟩
        rw [hba] at hb
        exact hb ha
    · rw [if_neg (by simpa using ha), ih (a :: seen)]
      rw [List.filter_cons, if_pos (by simpa using ha)]
      rw [specKeepFirst]
      congr 1
      rw [List.filter_filter]
      congr 1
      apply List.filter_congr
      intro b _
      simp

theorem applyMask_dupMaskFirst {α : Type} [DecidableEq α] (l : List α) :
    applyMask l (dupMaskFirst l) = specKeepFirst l := by
  rw [dupMaskFirst, applyMask_dupMaskFirstAux]
  congr 1
  simpa using List.filter_true l

theorem dupMaskFirstAux_concat {α : Type} [DecidableEq α] (x : α) :
    ∀ (l seen : List α),
      dupMaskFirstAux seen (l ++ [x]) =
        dupMaskFirstAux seen l ++ [decide (x ∈ l.reverse ++ seen)] := by
  intro l
  induction l with
  | nil => intro seen; simp [dupMaskFirstAux]
  | cons a l ih =>
    intro seen
    simp only [List.cons_append, dupMaskFirstAux, List.append_eq]
    rw [ih (a :: seen)]
    have hd : decide (x ∈ l.reverse ++ a :: seen) =
        decide (x ∈ (a :: l).reverse ++ seen) := by
      simp only [decide_eq_decide, List.reverse_cons, List.mem_append,
        List.mem_cons, List.mem_reverse, List.mem_singleton]
      tauto
    rw [hd]

theorem dupMaskLast_eq_reverse {α : Type} [DecidableEq α] (l : List α) :
    dupMaskLast l = (dupMaskFirst l.reverse).reverse := by
  induction l with
  | nil => simp [dupMaskLast, dupMaskFirst, dupMaskFirstAux]
  | cons a l ih =>
    rw [dupMaskLast, ih]
    simp only [List.reverse_cons, dupMaskFirst,
      dupMaskFirstAux_concat a l.reverse []]
    rw [List.reverse_append]
    simp

theorem applyMask_append {α : Type} :
    ∀ (l1 : List α) (m1 : List Bool), m1.length = l1.length →
      ∀ (l2 : List α) (m2 : List Bool),
        applyMask (l1 ++ l2) (m1 ++ m2) = applyMask l1 m1 ++ applyMask l2 m2 := by
  intro l1
  induction l1 with
  | nil =>
    intro m1 h
    have : m1 = [] := List.length_eq_zero.mp (by simpa using h)
    simp [this, applyMask]
  | cons a l ih =>
    intro m1 h l2 m2
    match m1, h with
    | b :: m1, h =>
      simp only [List.cons_append, applyMask_cons]
      rw [ih m1 (by simpa using h) l2 m2]
      cases b <;> simp

theorem applyMask_reverse {α : Type} :
    ∀ (l : List α) (m : List Bool), m.length = l.length →
      applyMask l.reverse m.reverse = (applyMask l m).reverse := by
  intro l
  induction l with
  | nil =>
    intro m h
    have : m = [] := List.length_eq_zero.mp (by simpa using h)
    simp [this, applyMask]
  | cons a l ih =>
    intro m h
    match m, h with
    | b :: m, h =>
      have hlen : m.length = l.length := by simpa using h
      simp only [List.reverse_cons]
      rw [applyMask_append l.reverse m.reverse
        (by simp [hlen]) [a] [b], applyMask_cons]
      rw [ih m hlen]
      cases b <;> simp [applyMask]

theorem length_dupMaskFirstAux {α : Type} [DecidableEq α] :
    ∀ (l seen : List α), (dupMaskFirstAux seen l).length = l.length := by
  intro l
  induction l with
  | nil => intro seen; rfl
  | cons a l ih => intro seen; simp [dupMaskFirstAux, ih]

theorem length_dupMaskLast {α : Type} [DecidableEq α] (l : List α) :
    (dupMaskLast l).length = l.length := by
  induction l with
  | nil => rfl
  | cons a l ih => simp [dupMaskLast, ih]

theorem length_applyMask {α : Type} :
    ∀ (l : List α) (m : List Bool), m.length = l.length →
      (applyMask l m).length = m.count false := by
  intro l
  induction l with
  | nil =>
    intro m h
    have : m = [] := List.length_eq_zero.mp (by simpa using h)
    simp [this, applyMask]
  | cons a l ih =>
    intro m h
    match m, h with
    | b :: m, h =>
      rw [applyMask_cons]
      cases b <;> simp [ih m (by simpa using h), List.count_cons]

theorem count_true_add_count_false (m : List Bool) :
    m.count true + m.count false = m.length := by
  induction m with
  | nil => rfl
  | cons b m ih => cases b <;> simp [List.count_cons] <;> omega

theorem applyMask_sublist {α : Type} :
    ∀ (l : List α) (m : List Bool), (applyMask l m).Sublist l := by
  intro l
  induction l with
  | nil => intro m; simp [applyMask]
  | cons a l ih =>
    intro m
    cases m with
    | nil => simp [applyMask]
    | cons b m =>
      rw [applyMask_cons]
      cases b with
      | false => simpa using (ih m).cons₂ a
      | true => simpa using (ih m).cons a

theorem mem_specKeepFirst {α : Type} [DecidableEq α] :
    ∀ (n : Nat) (l : List α), l.length ≤ n →
      ∀ x, (x ∈ specKeepFirst l ↔ x ∈ l) := by
  intro n
  induction n with
  | zero =>
    intro l hl x
    have : l = [] := List.length_eq_zero.mp (by omega)
    simp [this, specKeepFirst]
  | succ n ih =>
    intro l hl x
    cases l with
    | nil => simp [specKeepFirst]
    | cons a l =>
      rw [specKeepFirst]
      have hlen : (l.filter (fun b => decide (b ≠ a))).length ≤ n := by
        have := (List.filter_sublist (l := l) (p := fun b => decide (b ≠ a))).length_le
        simp at hl
        omega
      by_cases hx : x = a
      · simp [hx]
      · simp only [List.mem_cons, hx, false_or]
        rw [ih _ hlen x]
        simp [List.mem_filter, hx]

theorem nodup_specKeepFirst {α : Type} [DecidableEq α] :
    ∀ (n : Nat) (l : List α), l.length ≤ n → (specKeepFirst l).Nodup := by
  intro n
  induction n with
  | zero =>
    intro l hl
    have : l = [] := List.length_eq_zero.mp (by omega)
    simp [this, specKeepFirst]
  | succ n ih =>
    intro l hl
    cases l with
    | nil => simp [specKeepFirst]
    | cons a l =>
      rw [specKeepFirst]
      have hlen : (l.filter (fun b => decide (b ≠ a))).length ≤ n := by
        have := (List.filter_sublist (l := l) (p := fun b => decide (b ≠ a))).length_le
        simp at hl
        omega
      refine List.Nodup.cons ?_ (ih _ hlen)
      intro hmem
      have := (mem_specKeepFirst _ _ (le_refl _) a).mp hmem
      simp at this

theorem toFinset_specKeepFirst {α : Type} [DecidableEq α] (l : List α) :
    (specKeepFirst l).toFinset = l.toFinset := by
  ext x
  simp only [List.mem_toFinset]
  exact mem_specKeepFirst l.length l (le_refl _) x

theorem length_specKeepFirst {α : Type} [DecidableEq α] (l : List α) :
    (specKeepFirst l).length = l.toFinset.card := by
  rw [← toFinset_specKeepFirst]
  exact (List.toFinset_card_of_nodup
    (nodup_specKeepFirst l.length l (le_refl _))).symm

theorem applyMask_dupMaskLast {α : Type} [DecidableEq α] (l : List α) :
    applyMask l (dupMaskLast l) = specKeepLast l := by
  rw [dupMaskLast_eq_reverse, specKeepLast]
  have h1 : applyMask l.reverse (dupMaskFirst l.reverse) =
      specKeepFirst l.reverse := applyMask_dupMaskFirst l.reverse
  have h2 := applyMask_reverse l.reverse (dupMaskFirst l.reverse)
    (by rw [dupMaskFirst, length_dupMaskFirstAux])
  rw [List.reverse_reverse] at h2
  rw [h2, h1]

theorem length_specKeepLast {α : Type} [DecidableEq α] (l : List α) :
    (specKeepLast l).length = l.toFinset.card := by
  rw [specKeepLast, List.length_reverse, length_specKeepFirst,
    List.toFinset_reverse]

theorem duplicatedSum_eq_sub_card {α : Type} [DecidableEq α] (l : List α) :
    duplicatedSum l = l.length - l.toFinset.card := by
  have hlen : (dupMaskFirst l).length = l.length := length_dupMaskFirstAux l []
  have hcf : (applyMask l (dupMaskFirst l)).length = (dupMaskFirst l).count false :=
    length_applyMask l _ hlen
  rw [applyMask_dupMaskFirst, length_specKeepFirst] at hcf
  have hsum := count_true_add_count_false (dupMaskFirst l)
  unfold duplicatedSum
  omega

theorem dupMaskFirstAux_map_inj {α β : Type} [DecidableEq α] [DecidableEq β]
    (f : α → β) (L : List α)
    (hinj : ∀ a ∈ L, ∀ b ∈ L, f a = f b → a = b) :
    ∀ (l seen : List α), l ⊆ L → seen ⊆ L →
      dupMaskFirstAux (seen.map f) (l.map f) = dupMaskFirstAux seen l := by
  intro l
  induction l with
  | nil => intro seen _ _; rfl
  | cons a l ih =>
    intro seen hl hseen
    simp only [List.map_cons, dupMaskFirstAux]
    have ha : a ∈ L := hl (List.mem_cons_self a l)
    have hdec : decide (f a ∈ seen.map f) = decide (a ∈ seen) := by
      rw [decide_eq_decide]
      constructor
      · intro hm
        obtain ⟨y, hy, hfy⟩ := List.mem_map.mp hm
        have := hinj y (hseen hy) a ha hfy
        rwa [← this]
      · exact List.mem_map_of_mem f
    rw [hdec]
    have := ih (a :: seen) (fun x hx => hl (List.mem_cons_of_mem a hx))
      (fun x hx => by
        rcases List.mem_cons.mp hx with h | h
        · rw [h]; exact ha
        · exact hseen h)
    rw [← this]
    rfl

theorem duplicatedSum_map_inj {α β : Type} [DecidableEq α] [DecidableEq β]
    (f : α → β) (l : List α)
    (hinj : ∀ a ∈ l, ∀ b ∈ l, f a = f b → a = b) :
    duplicatedSum (l.map f) = duplicatedSum l := by
  unfold duplicatedSum dupMaskFirst
  rw [show ([] : List β) = List.map f [] from rfl,
    dupMaskFirstAux_map_inj f l hinj l [] (fun x hx => hx) (fun x hx => by cases hx)]

theorem projRow_inj (df : DF) (hrect : Rect df) :
    ∀ r1 ∈ df.rows, ∀ r2 ∈ df.rows, projRow df r1 = projRow df r2 → r1 = r2 := by
  intro r1 h1 r2 h2 heq
  have hl1 : r1.length = df.headers.length := hrect r1 h1
  have hl2 : r2.length = df.headers.length := hrect r2 h2
  apply List.ext_getElem (by omega)
  intro n hn1 hn2
  by_cases hk : n ∈ keptColIdx df
  · have hpt := List.map_eq_map_iff.mp heq n hk
    simp only at hpt
    rwa [List.getD_eq_getElem _ _ (by omega),
      List.getD_eq_getElem _ _ (by omega)] at hpt
  · have hnull : allNullCol df n = true := by
      by_contra hc
      exact hk (List.mem_filter.mpr
        ⟨List.mem_range.mpr (by omega), by simp [Bool.not_eq_true] at hc; simp [hc]⟩)
    have hall := List.all_eq_true.mp hnull
    have e1 := hall r1 h1
    have e2 := hall r2 h2
    simp only [Option.isNone_iff_eq_none] at e1 e2
    rw [List.getD_eq_getElem _ _ (by omega)] at e1 e2
    rw [e1, e2]

/-- Claim C6: duplicate resolution.  With keep policy `'first'`,
`drop_duplicates` retains exactly the first occurrence of each group of
value-identical rows in original order (the spec-side `specKeepFirst`), and
with `'last'` the last occurrence in original order (`specKeepLast`); either
way the result is a sublist of the input rows, so the relative order of
retained rows is preserved; and the number of rows removed equals the
dataset's original duplicate count (`df.duplicated().sum()` on the frame the
profiler saw), which is unchanged by `main`'s preceding drop of all-null
columns because every row holds the null marker in those columns. -/
theorem drop_duplicates_spec (df : DF) (hrect : Rect df) :
    (drop_duplicates (dropAllNullCols df) strFirst).1.rows =
        specKeepFirst (dropAllNullCols df).rows ∧
    (drop_duplicates (dropAllNullCols df) strLast).1.rows =
        specKeepLast (dropAllNullCols df).rows ∧
    List.Sublist (drop_duplicates (dropAllNullCols df) strFirst).1.rows
        (dropAllNullCols df).rows ∧
    List.Sublist (drop_duplicates (dropAllNullCols df) strLast).1.rows
        (dropAllNullCols df).rows ∧
    (drop_duplicates (dropAllNullCols df) strFirst).2 = duplicatedSum df.rows ∧
    (drop_duplicates (dropAllNullCols df) strLast).2 = duplicatedSum df.rows := by
  have hff : decide (strFirst = strLast) = false := by decide
  set l := (dropAllNullCols df).rows with hl
  have hfirst : (drop_duplicates (dropAllNullCols df) strFirst).1.rows =
      specKeepFirst l := by
    show pdDropDuplicates l (decide (strFirst = strLast)) = specKeepFirst l
    rw [hff]
    show applyMask l (if false then dupMaskLast l else dupMaskFirst l) =
      specKeepFirst l
    rw [if_neg Bool.false_ne_true]
    exact applyMask_dupMaskFirst l
  have hlast : (drop_duplicates (dropAllNullCols df) strLast).1.rows =
      specKeepLast l := by
    show pdDropDuplicates l (decide (strLast = strLast)) = specKeepLast l
    rw [decide_eq_true_eq.mpr rfl]
    show applyMask l (if true then dupMaskLast l else dupMaskFirst l) =
      specKeepLast l
    rw [if_pos rfl]
    exact applyMask_dupMaskLast l
  have hsum : duplicatedSum l = duplicatedSum df.rows := by
    rw [hl]
    show duplicatedSum (df.rows.map (projRow df)) = duplicatedSum df.rows
    exact duplicatedSum_map_inj (projRow df) df.rows (projRow_inj df hrect)
  have hcard : duplicatedSum l = l.length - l.toFinset.card :=
    duplicatedSum_eq_sub_card l
  have hkeptF : (specKeepFirst l).length = l.toFinset.card :=
    length_specKeepFirst l
  have hkeptL : (specKeepLast l).length = l.toFinset.card :=
    length_specKeepLast l
  refine ⟨hfirst, hlast, ?_, ?_, ?_, ?_⟩
  · rw [hfirst, ← applyMask_dupMaskFirst l]
    exact applyMask_sublist l _
  · rw [hlast, ← applyMask_dupMaskLast l]
    exact applyMask_sublist l _
  · show l.length - (pdDropDuplicates l (decide (strFirst = strLast))).length =
      duplicatedSum df.rows
    rw [hff]
    show l.length -
        (applyMask l (if false then dupMaskLast l else dupMaskFirst l)).length =
      duplicatedSum df.rows
    rw [if_neg Bool.false_ne_true, applyMask_dupMaskFirst l, hkeptF,
      ← hsum, hcard]
  · show l.length - (pdDropDuplicates l (decide (strLast = strLast))).length =
      duplicatedSum df.rows
    rw [decide_eq_true_eq.mpr rfl]
    show l.length -
        (applyMask l (if true then dupMaskLast l else dupMaskFirst l)).length =
      duplicatedSum df.rows
    rw [if_pos rfl, applyMask_dupMaskLast l, hkeptL, ← hsum, hcard]

/-- Witness for C6: the rectangularity hypothesis holds for `dfDup` and the
claim's conclusion follows for it by the theorem. -/
theorem drop_duplicates_spec_witness :
    Rect dfDup ∧
    ((drop_duplicates (dropAllNullCols dfDup) strFirst).1.rows =
        specKeepFirst (dropAllNullCols dfDup).rows ∧
    (drop_duplicates (dropAllNullCols dfDup) strLast).1.rows =
        specKeepLast (dropAllNullCols dfDup).rows ∧
    List.Sublist (drop_duplicates (dropAllNullCols dfDup) strFirst).1.rows
        (dropAllNullCols dfDup).rows ∧
    List.Sublist (drop_duplicates (dropAllNullCols dfDup) strLast).1.rows
        (dropAllNullCols dfDup).rows ∧
    (drop_duplicates (dropAllNullCols dfDup) strFirst).2 =
        duplicatedSum dfDup.rows ∧
    (drop_duplicates (dropAllNullCols dfDup) strLast).2 =
        duplicatedSum dfDup.rows) :=
  ⟨by decide, drop_duplicates_spec dfDup (by decide)⟩

theorem outlier_exists_iff (col : List Cell) :
    (∃ cell ∈ col, outlierCell col cell = true) ↔
      ∃ v ∈ nonNullNums col,
        v < lowerBoundary col ∨ upperBoundary col < v := by
  constructor
  · rintro ⟨cell, hcell, hout⟩
    rcases hv : cellNum cell with _ | v
    · rw [outlierCell, hv] at hout
      simp at hout
    · refine ⟨v, List.mem_filterMap.mpr ⟨cell, hcell, hv⟩, ?_⟩
      rw [outlierCell, hv] at hout
      simpa using hout
  · rintro ⟨v, hv, hcmp⟩
    obtain ⟨cell, hcell, hnum⟩ := List.mem_filterMap.mp hv
    refine ⟨cell, hcell, ?_⟩
    rw [outlierCell, hnum]
    simpa using hcmp

/-- Claim C5: `checkOutliers` returns true iff at least one value of the
column lies strictly outside `[Q1 - 1.5*IQR, Q3 + 1.5*IQR]`, where `Q1`/`Q3`
are the linearly-interpolated 25th/75th percentiles of the column's non-null
values; a value exactly on a boundary is not an outlier, so the detector
returns false whenever every value is inside or on the boundaries. -/
theorem checkOutliers_strictly_outside (col : List Cell) :
    (checkOutliersCol col = true ↔
      ∃ v ∈ nonNullNums col,
        v < lowerBoundary col ∨ upperBoundary col < v) ∧
    ((∀ v ∈ nonNullNums col,
        lowerBoundary col ≤ v ∧ v ≤ upperBoundary col) →
      checkOutliersCol col = false) := by
  have hiff : checkOutliersCol col = true ↔
      ∃ v ∈ nonNullNums col,
        v < lowerBoundary col ∨ upperBoundary col < v := by
    rw [checkOutliersCol, decide_eq_true_eq, List.countP_pos]
    exact outlier_exists_iff col
  refine ⟨hiff, fun hin => ?_⟩
  rw [Bool.eq_false_iff]
  intro htrue
  obtain ⟨v, hv, hcmp⟩ := hiff.mp htrue
  rcases hin v hv with ⟨hlb, hub⟩
  rcases hcmp with hc | hc
  · exact absurd hlb (not_le.mpr hc)
  · exact absurd hub (not_le.mpr hc)

/-- Witness for C5: the constant column `[1, 1, 1, 1]` has degenerate
boundaries `[1, 1]`; every value sits exactly on both boundaries, and the
detector returns false. -/
theorem checkOutliers_strictly_outside_witness :
    (∀ v ∈ nonNullNums colOnes,
      lowerBoundary colOnes ≤ v ∧ v ≤ upperBoundary colOnes) ∧
    checkOutliersCol colOnes = false := by
  have hnn : nonNullNums colOnes = [1, 1, 1, 1] := rfl
  have hlb : lowerBoundary colOnes = 1 := by
    unfold lowerBoundary firstQuartile thirdQuartile
    rw [hnn]
    norm_num [percentile, sortQ, insertSorted, Int.toNat]
  have hub : upperBoundary colOnes = 1 := by
    unfold upperBoundary firstQuartile thirdQuartile
    rw [hnn]
    norm_num [percentile, sortQ, insertSorted, Int.toNat]
  have hv : ∀ v ∈ nonNullNums colOnes,
      lowerBoundary colOnes ≤ v ∧ v ≤ upperBoundary colOnes := by
    intro v hv
    rw [hnn] at hv
    have hv1 : v = 1 := by simpa using hv
    rw [hv1, hlb, hub]
    exact ⟨le_refl _, le_refl _⟩
  exact ⟨hv, (checkOutliers_strictly_outside _).2 hv⟩

/-- Claim C9: null cells are never classified as outliers — the boolean
result of `checkOutliers` is determined entirely by the column's non-null
values, so two columns with the same non-null values (for example, one
obtained from the other by adding or removing null markers) always get the
same answer. -/
theorem checkOutliers_ignores_nulls (c1 c2 : List Cell)
    (h : nonNullNums c1 = nonNullNums c2) :
    checkOutliersCol c1 = checkOutliersCol c2 := by
  have hlb : lowerBoundary c1 = lowerBoundary c2 := by
    unfold lowerBoundary firstQuartile thirdQuartile
    rw [h]
  have hub : upperBoundary c1 = upperBoundary c2 := by
    unfold upperBoundary firstQuartile thirdQuartile
    rw [h]
  unfold checkOutliersCol
  rw [decide_eq_decide, List.countP_pos, List.countP_pos,
    outlier_exists_iff, outlier_exists_iff, h, hlb, hub]

/-- Witness for C9: appending a null marker to a concrete two-value column
leaves the non-null values (hence the detector's verdict) unchanged. -/
theorem checkOutliers_ignores_nulls_witness :
    nonNullNums [some (Val.num 1), some (Val.num 2)] =
      nonNullNums [some (Val.num 1), some (Val.num 2), none] ∧
    checkOutliersCol [some (Val.num 1), some (Val.num 2)] =
      checkOutliersCol [some (Val.num 1), some (Val.num 2), none] :=
  ⟨rfl, checkOutliers_ignores_nulls _ _ rfl⟩

theorem dfOut_q1 : firstQuartile (colCells dfOut 0) = 7/4 := by
  have hnn : nonNullNums (colCells dfOut 0) = [1, 2, 3, 100] := rfl
  unfold firstQuartile
  rw [hnn]
  norm_num [percentile, sortQ, insertSorted, Int.toNat]

theorem dfOut_q3 : thirdQuartile (colCells dfOut 0) = 109/4 := by
  have hnn : nonNullNums (colCells dfOut 0) = [1, 2, 3, 100] := rfl
  unfold thirdQuartile
  rw [hnn]
  norm_num [percentile, sortQ, insertSorted, Int.toNat]

theorem dfOut_checkOutliers : checkOutliers dfOut 0 = true := by
  have hub : upperBoundary (colCells dfOut 0) = 131/2 := by
    unfold upperBoundary
    rw [dfOut_q1, dfOut_q3]
    norm_num
  unfold checkOutliers checkOutliersCol
  rw [decide_eq_true_eq, List.countP_pos]
  refine ⟨some (Val.num 100), by simp [dfOut, colCells], ?_⟩
  rw [outlierCell]
  have hc : cellNum (some (Val.num 100)) = some 100 := rfl
  rw [hc, hub]
  norm_num

/-- Claim C1 (code bug): on `'impute'` with outliers present, the imputer is
`round(np.median(df[column]), 2)` computed on the raw column — but the column
still contains its nulls, so the median is NaN and `fillna(NaN)` is a no-op.
At the concrete frame `dfOut` (values 1, 2, 3, 100 and one null; the 100 is
an outlier, so the median branch runs) `handle_nulls('impute', ...)` returns
the frame UNCHANGED: the column still contains a null afterwards, contrary to
the claim that imputation leaves zero nulls. -/
theorem handle_nulls_impute_median_bug :
    checkOutliers dfOut 0 = true ∧
    handle_nulls (some strImpute) dfOut 0 = Except.ok dfOut ∧
    (colCells dfOut 0).countP (fun cell => cell.isNone) = 1 := by
  refine ⟨dfOut_checkOutliers, ?_, rfl⟩
  unfold handle_nulls
  rw [if_neg (by decide)]
  simp only [dfOut_checkOutliers, if_true]
  have hmed : npMedian (colCells dfOut 0) = none := rfl
  rw [hmed]
  rfl

/-- Claim C3 (code bug): on `'drop'`, the statement
`df[column] = df.dropna(subset=[column]).reset_index()` assigns a DataFrame
with `1 + column-count` columns to a single column, so pandas raises
`ValueError` instead of removing the rows with nulls.  Shown at the concrete
frame `dfOut`, whose column has one null. -/
theorem handle_nulls_drop_raises :
    (colCells dfOut 0).countP (fun cell => cell.isNone) = 1 ∧
    handle_nulls (some strDrop) dfOut 0 = Except.error PdError.valueErr := by
  refine ⟨rfl, ?_⟩
  unfold handle_nulls
  rw [if_pos (by decide)]
  rfl

theorem dfC2_checkOutliers : checkOutliers dfC2 0 = false := by
  have hnn : nonNullNums (colCells dfC2 0) = [1, 2, 3] := rfl
  have hq1 : firstQuartile (colCells dfC2 0) = 3/2 := by
    unfold firstQuartile
    rw [hnn]
    norm_num [percentile, sortQ, insertSorted, Int.toNat]
  have hq3 : thirdQuartile (colCells dfC2 0) = 5/2 := by
    unfold thirdQuartile
    rw [hnn]
    norm_num [percentile, sortQ, insertSorted, Int.toNat]
  have hlb : lowerBoundary (colCells dfC2 0) = 0 := by
    unfold lowerBoundary
    rw [hq1, hq3]
    norm_num
  have hub : upperBoundary (colCells dfC2 0) = 4 := by
    unfold upperBoundary
    rw [hq1, hq3]
    norm_num
  unfold checkOutliers checkOutliersCol
  rw [decide_eq_false_iff_not, List.countP_pos, outlier_exists_iff]
  rintro ⟨v, hv, hcmp⟩
  rw [hnn] at hv
  rw [hlb, hub] at hcmp
  simp only [List.mem_cons, List.not_mem_nil, or_false] at hv
  rcases hv with h | h | h <;> subst h <;>
    rcases hcmp with h | h <;> norm_num at h

theorem dfC2_handle_nulls :
    handle_nulls none dfC2 0 = Except.ok dfC2imp := by
  have hmean : seriesMean (colCells dfC2 0) = some 2 := by
    have hnn : nonNullNums (colCells dfC2 0) = [1, 2, 3] := rfl
    unfold seriesMean
    rw [hnn]
    norm_num
  have hrnd : pyRound 2 = 2 := by
    unfold pyRound
    norm_num
  unfold handle_nulls
  rw [if_neg (by decide)]
  simp only [dfC2_checkOutliers, Bool.false_eq_true, if_false, hmean,
    Option.map_some', hrnd]
  rfl

/-- Claim C2 (code bug): at the per-column null-handling prompt, retry
exhaustion does NOT abort the run.  With the frame `dfC2` (one numeric column
with a null) and every interactive answer invalid, `take_input` fails with
attempt count 3, but `main` merely logs and prints — there is no `sys.exit()`
— and then calls `handle_nulls` with `null_cmd = None`, which RUNS THE IMPUTE
BRANCH: the run finishes normally with the column mean-imputed, contrary to
the claim that the process exits with no further cleaning applied.  (At the
duplicate prompt the source does exit; the defect is specific to the null
prompt, lines 215–225.) -/
theorem null_prompt_no_exit_bug :
    take_input expectedNull 3 zzzInput = (none, some 3) ∧
    runMain (Except.ok dfC2) zzzInput = MainResult.finished dfC2imp := by
  constructor
  · rfl
  · have h1 : runMain (Except.ok dfC2) zzzInput =
        (match handle_nulls none dfC2 0 with
          | Except.error _ => MainResult.crashed
          | Except.ok df2 => nullLoop zzzInput [] df2 (0 + 3)) := rfl
    rw [h1, dfC2_handle_nulls]
    rfl

/-- Claim C7 (code bug): of the four abort situations, only the wrong
argument count exits non-zero (`sys.exit(1)`).  Load failure, the empty
dataset, and duplicate-prompt retry exhaustion all go through a bare
`sys.exit()`, which exits with status 0 — and null-prompt retry exhaustion
does not exit at all (claim C2).  Each conjunct evaluates the program at the
corresponding concrete situation. -/
theorem exit_code_zero_bug :
    runProgram 3 (Except.error ()) zzzInput = MainResult.exited 1 ∧
    runProgram 2 (Except.error ()) zzzInput = MainResult.exited 0 ∧
    runProgram 2 (Except.ok dfEmpty) zzzInput = MainResult.exited 0 ∧
    runProgram 2 (Except.ok dfDup) zzzInput = MainResult.exited 0 := by
  refine ⟨rfl, rfl, rfl, ?_⟩
  rfl
